import Mathlib

/-!
Verification of the rich-text command-dispatch core
(`packages/outline-react/src/shared/useRichTextSetup.js`).

The embedding models the command listener registered by `useRichTextSetup`,
the lifecycle helpers (`initEditor`, `clearEditor`, `initParagraph`,
`shouldSelectParagraph`) and the feature-conditional event-binding table.

External collaborators (the outline core's `Selection` methods, node
accessors and the editor session) are not part of this file's source; they
are modelled from the specification's interface descriptions, each with a
doc comment saying so.  JavaScript payload values are modelled by `Value`
(with `undefined` and truthiness), and a thrown invariant violation
(`getParentOrThrow`) by `Except.error`.
-/

namespace RichText

/-- A JavaScript payload value as the dispatcher receives it: `undefined`
(no payload), a boolean, a string (as a list of characters), or a raw
keyboard event carrying its `shiftKey` flag. -/
inductive Value where
  | undef : Value
  | bool : Bool → Value
  | str : List Char → Value
  | keyEvent : Bool → Value
deriving DecidableEq, Repr

/-- JavaScript truthiness of a payload, applied where the code hands a raw
payload to a boolean-consuming collaborator (`undefined` and the empty
string are falsy; objects are truthy). -/
def Value.toBool : Value → Bool
  | Value.undef => false
  | Value.bool b => b
  | Value.str s => !s.isEmpty
  | Value.keyEvent _ => true

/-- The string carried by a payload.  The dispatcher only ever reaches this
with an actual string payload (`insertText`, `formatText`, `formatElement`),
so non-string payloads are mapped to the empty string. -/
def Value.toStr : Value → List Char
  | Value.str s => s
  | _ => []

/-- The `shiftKey` flag of a raw key-event payload.  The dispatcher only
reads it on the key commands, whose payload is always a key event. -/
def Value.shiftKeyOf : Value → Bool
  | Value.keyEvent s => s
  | _ => false

/-- A block-level document node (paragraph, heading, list item, quote, code
block): its kind tag, structural indent level, the "can insert literal tab"
capability flag (true only for code-like blocks), its element format and
its text content. -/
structure Block where
  kind : String
  indent : Nat
  canInsertTab : Bool
  format : List Char
  textContent : List Char
deriving DecidableEq, Repr

/-- The node a selection anchor points at: either an element (block) node
itself, or a text node with its content and its (optional) parent block.
The anchor's point kind (`'element'` / `'text'`) coincides with the node
kind, as the document model guarantees. -/
inductive AnchorNode where
  | element : Block → AnchorNode
  | textNode : List Char → Option Block → AnchorNode
deriving DecidableEq, Repr

/-- Modelled from the spec: `getTextContent()` of the anchor node. -/
def AnchorNode.getTextContent : AnchorNode → List Char
  | AnchorNode.element b => b.textContent
  | AnchorNode.textNode c _ => c

/-- Replace the anchor node's text content (the write-back half of the
text-mutating selection methods). -/
def AnchorNode.setTextContent : AnchorNode → List Char → AnchorNode
  | AnchorNode.element b, c => AnchorNode.element { b with textContent := c }
  | AnchorNode.textNode _ p, c => AnchorNode.textNode c p

/-- The enclosing-block resolution used by `indentContent`,
`outdentContent` and `formatElement`:
`anchor.type === 'element' ? anchor.getNode() : anchor.getNode().getParentOrThrow()`.
`none` is the case in which `getParentOrThrow` throws (a text node with no
parent block). -/
def AnchorNode.resolveParentBlock? : AnchorNode → Option Block
  | AnchorNode.element b => some b
  | AnchorNode.textNode _ p => p

/-- A selection, reduced to the data the dispatcher reads: its anchor node
and anchor offset.  The focus point of the range is outside this model, so
range-shaped operations are modelled on the collapsed-at-anchor view. -/
structure Selection where
  anchorNode : AnchorNode
  anchorOffset : Nat
deriving DecidableEq, Repr

/-- Modelled from the spec: `insertText(text)` inserts literal text at the
anchor and leaves the selection after the inserted text. -/
def Selection.insertText (sel : Selection) (t : List Char) : Selection :=
  let c := sel.anchorNode.getTextContent
  { anchorNode :=
      sel.anchorNode.setTextContent
        (c.take sel.anchorOffset ++ t ++ c.drop sel.anchorOffset),
    anchorOffset := sel.anchorOffset + t.length }

/-- Modelled from the spec: `deleteCharacter(isBackward)` deletes one
character relative to the anchor, direction per flag (backward at the start
of content has nothing to delete). -/
def Selection.deleteCharacter (sel : Selection) (isBackward : Bool) : Selection :=
  let c := sel.anchorNode.getTextContent
  if isBackward then
    if sel.anchorOffset = 0 then sel
    else
      { anchorNode :=
          sel.anchorNode.setTextContent
            (c.take (sel.anchorOffset - 1) ++ c.drop sel.anchorOffset),
        anchorOffset := sel.anchorOffset - 1 }
  else
    { sel with
      anchorNode :=
        sel.anchorNode.setTextContent
          (c.take sel.anchorOffset ++ c.drop (sel.anchorOffset + 1)) }

/-- Modelled from the spec: `deleteWord(isBackward)` deletes one word
relative to the anchor (a word and the spaces separating it from the
anchor). -/
def Selection.deleteWord (sel : Selection) (isBackward : Bool) : Selection :=
  let c := sel.anchorNode.getTextContent
  if isBackward then
    let kept :=
      (((c.take sel.anchorOffset).reverse.dropWhile (fun ch => ch = ' ')).dropWhile
        (fun ch => ch ≠ ' ')).reverse
    { anchorNode :=
        sel.anchorNode.setTextContent (kept ++ c.drop sel.anchorOffset),
      anchorOffset := kept.length }
  else
    let rest :=
      ((c.drop sel.anchorOffset).dropWhile (fun ch => ch = ' ')).dropWhile
        (fun ch => ch ≠ ' ')
    { sel with
      anchorNode := sel.anchorNode.setTextContent (c.take sel.anchorOffset ++ rest) }

/-- Modelled from the spec: `deleteLine(isBackward)` deletes to the line
boundary relative to the anchor. -/
def Selection.deleteLine (sel : Selection) (isBackward : Bool) : Selection :=
  let c := sel.anchorNode.getTextContent
  if isBackward then
    let kept := ((c.take sel.anchorOffset).reverse.dropWhile (fun ch => ch ≠ '\n')).reverse
    { anchorNode :=
        sel.anchorNode.setTextContent (kept ++ c.drop sel.anchorOffset),
      anchorOffset := kept.length }
  else
    { sel with
      anchorNode :=
        sel.anchorNode.setTextContent
          (c.take sel.anchorOffset ++ (c.drop sel.anchorOffset).dropWhile (fun ch => ch ≠ '\n')) }

/-- Modelled from the spec: `removeText()` deletes the current selection
range's contents.  On the collapsed-at-anchor view of this model the range
is empty, so the anchor-visible state is unchanged. -/
def Selection.removeText (sel : Selection) : Selection :=
  sel

/-- Modelled from the spec: `formatText(format)` toggles the given inline
format on the selection range.  The inline-format state of the range lives
outside the anchor-local view of this model, so the anchor-visible state is
unchanged. -/
def Selection.formatText (sel : Selection) (_fmt : List Char) : Selection :=
  sel

/-- Modelled from the spec: `insertLineBreak(selectStart)` inserts a soft
line break at the anchor; if `selectStart` the selection stays before the
break, else it moves after it. -/
def Selection.insertLineBreak (sel : Selection) (selectStart : Bool) : Selection :=
  let c := sel.anchorNode.getTextContent
  { anchorNode :=
      sel.anchorNode.setTextContent
        (c.take sel.anchorOffset ++ ['\n'] ++ c.drop sel.anchorOffset),
    anchorOffset := if selectStart then sel.anchorOffset else sel.anchorOffset + 1 }

/-- Modelled from the spec: `insertParagraph()` splits the current block
into a new paragraph at the anchor; the anchor moves to the start of the
new block, which holds the text after the split point (the leading text
stays with the original block, outside this anchor-local view). -/
def Selection.insertParagraph (sel : Selection) : Selection :=
  { anchorNode := sel.anchorNode.setTextContent (sel.anchorNode.getTextContent.drop sel.anchorOffset),
    anchorOffset := 0 }

/-- Modelled from the spec: `$moveCharacter(selection, isHoldingShift,
isBackward)` moves the caret by one character in the given direction
(extending the range when shift is held happens on the focus point, outside
this anchor-local view). -/
def Selection.moveCharacter (sel : Selection) (_isHoldingShift : Bool) (isBackward : Bool) : Selection :=
  { sel with
    anchorOffset := if isBackward then sel.anchorOffset - 1 else sel.anchorOffset + 1 }

/-- Write an indent level into the resolved parent block (`setIndent` on
the block returned by the enclosing-block resolution). -/
def Selection.setParentIndent (sel : Selection) (k : Nat) : Selection :=
  match sel.anchorNode with
  | AnchorNode.element b =>
      { sel with anchorNode := AnchorNode.element { b with indent := k } }
  | AnchorNode.textNode c p =>
      { sel with
        anchorNode := AnchorNode.textNode c (p.map fun b => { b with indent := k }) }

/-- Write an element format into the resolved parent block (`setFormat` on
the element resolved by the `formatElement` case). -/
def Selection.setParentFormat (sel : Selection) (f : List Char) : Selection :=
  match sel.anchorNode with
  | AnchorNode.element b =>
      { sel with anchorNode := AnchorNode.element { b with format := f } }
  | AnchorNode.textNode c p =>
      { sel with
        anchorNode := AnchorNode.textNode c (p.map fun b => { b with format := f }) }

/-- The character immediately before the anchor offset in the anchor
node's text content: `textContent[anchor.offset - 1]` in JavaScript, where
an index of `-1` (offset 0) or an out-of-range index yields `undefined`
(`none`). -/
def charBefore (sel : Selection) : Option Char :=
  if sel.anchorOffset = 0 then none
  else sel.anchorNode.getTextContent.get? (sel.anchorOffset - 1)

/-- A thrown JavaScript error.  The only throw site reachable from this
module is `getParentOrThrow`, an invariant violation (unrecoverable
fault). -/
inductive JsError where
  | invariantViolation : String → JsError
deriving DecidableEq, Repr

/-- The editor-session state visible to this module: the Root's children,
the current selection (nullable), whether `document.activeElement` is the
editor's root element, the injected arrow-key override policy
(`$shouldOverrideDefaultCharacterSelection` for each direction), and a
ghost log of every command that passes through the dispatch entry point. -/
structure EditorState where
  root : List Block
  selection : Option Selection
  focusedOnRoot : Bool
  overrideBackward : Bool
  overrideForward : Bool
  log : List (String × Value)
deriving DecidableEq, Repr

/-- The state with the ghost dispatch log erased: two states are the same
"model effect" when they agree under `stripLog`. -/
def stripLog (st : EditorState) : EditorState :=
  { st with log := [] }

/-- Commit a mutated selection back into the state. -/
def EditorState.setSelection (st : EditorState) (sel : Selection) : EditorState :=
  { st with selection := some sel }

/-- The indent level of the block enclosing the current anchor, when a
selection exists and the resolution succeeds. -/
def resolvedIndent (st : EditorState) : Option Nat :=
  (st.selection.bind fun sel => sel.anchorNode.resolveParentBlock?).map Block.indent

/-- The type of the re-entrant dispatch entry point `editor.execCommand`:
it runs the full priority-ordered handler chain (which may include handlers
the host registered besides this one), mutates the state, returns whether
some handler claimed the command, and propagates any thrown error. -/
def ExecFn : Type :=
  String → Value → EditorState → Except JsError (Bool × EditorState)

/-- The command listener registered by `useRichTextSetup` (lines 133-270 of
the source), parameterised over the re-entrant dispatch entry point `exec`
(`editor.execCommand`).  Returns the handled flag and the resulting state,
or a thrown error.  `event.preventDefault()` is a DOM-surface effect with
no model state and is not tracked. -/
def onCommand (exec : ExecFn) (type : String) (payload : Value) (st : EditorState) :
    Except JsError (Bool × EditorState) :=
  match st.selection with
  | none => Except.ok (false, st)
  | some selection =>
    if type = "deleteCharacter" then
      Except.ok (true, st.setSelection (selection.deleteCharacter payload.toBool))
    else if type = "deleteWord" then
      Except.ok (true, st.setSelection (selection.deleteWord payload.toBool))
    else if type = "deleteLine" then
      Except.ok (true, st.setSelection (selection.deleteLine payload.toBool))
    else if type = "insertText" then
      Except.ok (true, st.setSelection (selection.insertText payload.toStr))
    else if type = "removeText" then
      Except.ok (true, st.setSelection selection.removeText)
    else if type = "formatText" then
      Except.ok (true, st.setSelection (selection.formatText payload.toStr))
    else if type = "formatElement" then
      match selection.anchorNode.resolveParentBlock? with
      | none => Except.error (JsError.invariantViolation "getParentOrThrow")
      | some _ =>
          Except.ok (true, st.setSelection (selection.setParentFormat payload.toStr))
    else if type = "insertLineBreak" then
      Except.ok (true, st.setSelection (selection.insertLineBreak payload.toBool))
    else if type = "insertParagraph" then
      Except.ok (true, st.setSelection selection.insertParagraph)
    else if type = "indentContent" then
      match selection.anchorNode.resolveParentBlock? with
      | none => Except.error (JsError.invariantViolation "getParentOrThrow")
      | some parentBlock =>
        if parentBlock.canInsertTab then
          match exec "insertText" (Value.str ['\t']) st with
          | Except.error e => Except.error e
          | Except.ok (_, st') => Except.ok (true, st')
        else
          if parentBlock.indent ≠ 10 then
            Except.ok (true, st.setSelection (selection.setParentIndent (parentBlock.indent + 1)))
          else
            Except.ok (true, st)
    else if type = "outdentContent" then
      match selection.anchorNode.resolveParentBlock? with
      | none => Except.error (JsError.invariantViolation "getParentOrThrow")
      | some parentBlock =>
        if parentBlock.canInsertTab then
          if charBefore selection = some '\t' then
            match exec "deleteCharacter" (Value.bool true) st with
            | Except.error e => Except.error e
            | Except.ok (_, st') => Except.ok (true, st')
          else
            Except.ok (true, st)
        else
          if parentBlock.indent ≠ 0 then
            Except.ok (true, st.setSelection (selection.setParentIndent (parentBlock.indent - 1)))
          else
            Except.ok (true, st)
    else if type = "keyArrowLeft" then
      if st.overrideBackward then
        Except.ok (true, st.setSelection (selection.moveCharacter payload.shiftKeyOf true))
      else
        Except.ok (false, st)
    else if type = "keyArrowRight" then
      if st.overrideForward then
        Except.ok (true, st.setSelection (selection.moveCharacter payload.shiftKeyOf false))
      else
        Except.ok (false, st)
    else if type = "keyBackspace" then
      exec "deleteCharacter" (Value.bool true) st
    else if type = "keyDelete" then
      exec "deleteCharacter" (Value.bool false) st
    else if type = "keyEnter" then
      if payload.shiftKeyOf then
        exec "insertLineBreak" Value.undef st
      else
        exec "insertParagraph" Value.undef st
    else if type = "keyTab" then
      exec (if payload.shiftKeyOf then "outdentContent" else "indentContent") Value.undef st
    else
      Except.ok (false, st)

/-- The closed system in which the only registered command listener is
`onCommand` itself: `execN (n+1)` dispatches a command by logging it and
running `onCommand`, with `execN n` as the re-entrant entry point handed to
the handler.  The fuel only bounds the delegation depth (at most 3 in the
source: keyTab to indentContent to insertText). -/
def execN : Nat → String → Value → EditorState → Except JsError (Bool × EditorState)
  | 0, _, _, st => Except.ok (false, st)
  | n + 1, type, payload, st =>
      onCommand (execN n) type payload { st with log := st.log ++ [(type, payload)] }

/-- `editor.execCommand` in the closed system: fuel 4 strictly exceeds the
deepest delegation chain in the source. -/
def execCommand : String → Value → EditorState → Except JsError (Bool × EditorState) :=
  execN 4

/-- Modelled from the spec: `$createParagraphNode()` creates an empty
paragraph block; paragraphs do not accept literal tabs (only code-like
blocks do). -/
def createParagraphNode : Block :=
  { kind := "paragraph", indent := 0, canInsertTab := false, format := [], textContent := [] }

/-- `shouldSelectParagraph`: an active selection already exists, or the
editing surface currently has input focus
(`document.activeElement === editor.getRootElement()`). -/
def shouldSelectParagraph (st : EditorState) : Bool :=
  st.selection.isSome || st.focusedOnRoot

/-- `initParagraph`: append one empty paragraph to the Root and, if the
selection-visibility heuristic holds, place the selection inside the new
paragraph (modelled from the spec: `paragraph.select()` anchors the
selection inside the empty paragraph at offset 0). -/
def initParagraph (st : EditorState) : EditorState :=
  let paragraph := createParagraphNode
  let st1 := { st with root := st.root ++ [paragraph] }
  if shouldSelectParagraph st1 then
    { st1 with
      selection := some { anchorNode := AnchorNode.element paragraph, anchorOffset := 0 } }
  else
    st1

/-- `initEditor`: inside one update, if the Root has no first child, run
`initParagraph`; otherwise do nothing. -/
def initEditor (st : EditorState) : EditorState :=
  match st.root with
  | [] => initParagraph st
  | _ :: _ => st

/-- `clearEditor`: inside one update, empty the Root of all children and
re-run `initParagraph`.  The second component counts invocations of the
completion callback; modelled from the spec, the session fires the
`onUpdate` callback exactly once, after the update is committed. -/
def clearEditor (st : EditorState) : EditorState × Nat :=
  (initParagraph { st with root := [] }, 1)

/-- The mount-time initialisation of `useRichTextSetup`: when the
initialise flag is set, run `initEditor`. -/
def useRichTextSetup (init : Bool) (st : EditorState) : EditorState :=
  if init then initEditor st else st

/-- The unconditional event bindings of the Normalizer (lines 52-63 of the
source), as (event name, handler name) pairs. -/
def baseEvents : List (String × String) :=
  [("selectionchange", "onSelectionChange"),
   ("keydown", "onKeyDown"),
   ("compositionstart", "onCompositionStart"),
   ("compositionend", "onCompositionEnd"),
   ("cut", "onCutForRichText"),
   ("copy", "onCopyForRichText"),
   ("dragstart", "onDragStartPolyfill"),
   ("paste", "onPasteForRichText"),
   ("input", "onInput"),
   ("click", "onClick")]

/-- The full event-binding table as a function of the platform capability
flag `CAN_USE_BEFORE_INPUT`: with native before-input support the
`beforeinput` handler is pushed, otherwise the drop-polyfill handler is. -/
def events (canUseBeforeInput : Bool) : List (String × String) :=
  if canUseBeforeInput then
    baseEvents ++ [("beforeinput", "onBeforeInput")]
  else
    baseEvents ++ [("drop", "onDropPolyfill")]

/-- A concrete code block (accepts literal tabs) used as a test input. -/
def codeBlockEx : Block :=
  { kind := "code", indent := 3, canInsertTab := true, format := [],
    textContent := ['a', '\t', 'b'] }

/-- A concrete paragraph block at indent 4 used as a test input. -/
def paraBlockEx : Block :=
  { kind := "paragraph", indent := 4, canInsertTab := false, format := [],
    textContent := ['h', 'i'] }

/-- A concrete paragraph block already at the indent ceiling of 10. -/
def paraBlockTen : Block :=
  { kind := "paragraph", indent := 10, canInsertTab := false, format := [],
    textContent := [] }

/-- A concrete paragraph block at indent 0. -/
def paraBlockZero : Block :=
  { kind := "paragraph", indent := 0, canInsertTab := false, format := [],
    textContent := [] }

/-- A selection whose anchor is a text node with the given content, parent
block and offset. -/
def textSelEx (b : Block) (c : List Char) (off : Nat) : Selection :=
  { anchorNode := AnchorNode.textNode c (some b), anchorOffset := off }

/-- A bare editor state carrying the given selection. -/
def stateWith (sel : Option Selection) : EditorState :=
  { root := [], selection := sel, focusedOnRoot := false,
    overrideBackward := false, overrideForward := false, log := [] }

/-- A selection anchored in a text node with no parent block: the
model-corruption case in which `getParentOrThrow` throws. -/
def orphanSel : Selection :=
  { anchorNode := AnchorNode.textNode ['x'] none, anchorOffset := 0 }

/-- One possible behaviour of the re-entrant dispatch entry point: no
handler claims the delegated command (for instance because a
higher-priority handler cleared the selection and declined), so it reports
unhandled and leaves the state alone.  Used to observe whether a handler
propagates or swallows its delegate's result. -/
def falseExec : ExecFn :=
  fun _ _ st => Except.ok (false, st)

/-- An empty, focused editor state with no selection: the mount scenario in
which the selection-visibility heuristic holds through focus. -/
def focusedEmptyState : EditorState :=
  { root := [], selection := none, focusedOnRoot := true,
    overrideBackward := false, overrideForward := false, log := [] }

/-- An empty, unfocused editor state with no selection: the mount scenario
in which the selection-visibility heuristic fails. -/
def blurredEmptyState : EditorState :=
  { root := [], selection := none, focusedOnRoot := false,
    overrideBackward := false, overrideForward := false, log := [] }

theorem execCommand_run (type : String) (payload : Value) (st : EditorState) :
    execCommand type payload st =
      onCommand (execN 3) type payload { st with log := st.log ++ [(type, payload)] } :=
  rfl

theorem execN_run (n : Nat) (type : String) (payload : Value) (st : EditorState) :
    execN (n + 1) type payload st =
      onCommand (execN n) type payload { st with log := st.log ++ [(type, payload)] } :=
  rfl

theorem indent_resolve_setTextContent (n : AnchorNode) (c : List Char) :
    ((n.setTextContent c).resolveParentBlock?).map Block.indent =
      (n.resolveParentBlock?).map Block.indent := by
  cases n <;> rfl

theorem resolve_setParentIndent (sel : Selection) (k : Nat) (b : Block)
    (h : sel.anchorNode.resolveParentBlock? = some b) :
    (sel.setParentIndent k).anchorNode.resolveParentBlock? = some { b with indent := k } := by
  cases hn : sel.anchorNode with
  | element b0 =>
      rw [hn] at h
      simp [AnchorNode.resolveParentBlock?] at h
      simp [Selection.setParentIndent, hn, AnchorNode.resolveParentBlock?, h]
  | textNode c0 p =>
      rw [hn] at h
      simp [AnchorNode.resolveParentBlock?] at h
      simp [Selection.setParentIndent, hn, AnchorNode.resolveParentBlock?, h]

/-- C1: dispatching `indentContent` with an active selection: when the
resolved enclosing block cannot accept literal tabs, an indent level
n < 10 becomes n + 1, and at indent level 10 the state is unchanged; when
the block can accept literal tabs, the resolved indent level is never
changed and `insertText` with a single tab character is re-dispatched
instead, inserting the tab at the anchor.  Every case reports handled. -/
theorem indentContent_correct (st : EditorState) (sel : Selection) (pb : Block)
    (hsel : st.selection = some sel)
    (hres : sel.anchorNode.resolveParentBlock? = some pb) :
    (pb.canInsertTab = false → pb.indent < 10 →
      ∃ st', execCommand "indentContent" Value.undef st = Except.ok (true, st') ∧
        resolvedIndent st' = some (pb.indent + 1) ∧ st'.root = st.root) ∧
    (pb.canInsertTab = false → pb.indent = 10 →
      ∃ st', execCommand "indentContent" Value.undef st = Except.ok (true, st') ∧
        stripLog st' = stripLog st) ∧
    (pb.canInsertTab = true →
      ∃ st', execCommand "indentContent" Value.undef st = Except.ok (true, st') ∧
        resolvedIndent st' = resolvedIndent st ∧
        st'.selection = some (sel.insertText ['\t']) ∧
        st'.root = st.root ∧
        st'.log = st.log ++ [("indentContent", Value.undef), ("insertText", Value.str ['\t'])]) := by
  refine ⟨?_, ?_, ?_⟩
  · intro hc hlt
    have hne : pb.indent ≠ 10 := Nat.ne_of_lt hlt
    refine ⟨{ st with
              selection := some (sel.setParentIndent (pb.indent + 1)),
              log := st.log ++ [("indentContent", Value.undef)] }, ?_, ?_, rfl⟩
    · rw [execCommand_run]
      simp [onCommand, hsel, hres, hc, hne, EditorState.setSelection]
    · simp [resolvedIndent, resolve_setParentIndent sel (pb.indent + 1) pb hres]
  · intro hc h10
    refine ⟨{ st with log := st.log ++ [("indentContent", Value.undef)] }, ?_, ?_⟩
    · rw [execCommand_run]
      simp [onCommand, hsel, hres, hc, h10]
    · simp [stripLog]
  · intro hc
    refine ⟨{ st with
              selection := some (sel.insertText ['\t']),
              log := st.log ++ [("indentContent", Value.undef), ("insertText", Value.str ['\t'])] },
            ?_, ?_, rfl, rfl, rfl⟩
    · rw [execCommand_run]
      simp [onCommand, hsel, hres, hc, execN_run, Value.toStr, EditorState.setSelection]
    · simp [resolvedIndent, hsel, Selection.insertText, indent_resolve_setTextContent, hres]

theorem indentContent_correct_witness :
    ∃ st',
      execCommand "indentContent" Value.undef
          (stateWith (some (textSelEx paraBlockEx ['h', 'i'] 1))) =
        Except.ok (true, st') ∧
      resolvedIndent st' = some (paraBlockEx.indent + 1) ∧
      st'.root = (stateWith (some (textSelEx paraBlockEx ['h', 'i'] 1))).root :=
  (indentContent_correct (stateWith (some (textSelEx paraBlockEx ['h', 'i'] 1)))
    (textSelEx paraBlockEx ['h', 'i'] 1) paraBlockEx rfl rfl).1 rfl (by decide)

theorem getTextContent_setTextContent (n : AnchorNode) (c : List Char) :
    (n.setTextContent c).getTextContent = c := by
  cases n <;> rfl

/-- C2: dispatching `outdentContent` with an active selection: when the
resolved enclosing block cannot accept literal tabs, an indent level
0 < n ≤ 10 becomes n - 1, and at indent level 0 the state is unchanged;
when the block can accept literal tabs, `deleteCharacter(backward)` is
re-dispatched — deleting exactly the one character preceding the anchor
offset — if and only if the character immediately before the anchor offset
in the anchor node's text content is a literal tab, and otherwise the
state is unchanged.  Every case reports handled. -/
theorem outdentContent_correct (st : EditorState) (sel : Selection) (pb : Block)
    (hsel : st.selection = some sel)
    (hres : sel.anchorNode.resolveParentBlock? = some pb) :
    (pb.canInsertTab = false → 0 < pb.indent → pb.indent ≤ 10 →
      ∃ st', execCommand "outdentContent" Value.undef st = Except.ok (true, st') ∧
        resolvedIndent st' = some (pb.indent - 1) ∧ st'.root = st.root) ∧
    (pb.canInsertTab = false → pb.indent = 0 →
      ∃ st', execCommand "outdentContent" Value.undef st = Except.ok (true, st') ∧
        stripLog st' = stripLog st) ∧
    (pb.canInsertTab = true → charBefore sel = some '\t' →
      ∃ st', execCommand "outdentContent" Value.undef st = Except.ok (true, st') ∧
        st'.selection = some (sel.deleteCharacter true) ∧
        (sel.deleteCharacter true).anchorNode.getTextContent =
          sel.anchorNode.getTextContent.take (sel.anchorOffset - 1) ++
            sel.anchorNode.getTextContent.drop sel.anchorOffset ∧
        st'.root = st.root ∧
        st'.log = st.log ++
          [("outdentContent", Value.undef), ("deleteCharacter", Value.bool true)]) ∧
    (pb.canInsertTab = true → charBefore sel ≠ some '\t' →
      ∃ st', execCommand "outdentContent" Value.undef st = Except.ok (true, st') ∧
        stripLog st' = stripLog st) := by
  refine ⟨?_, ?_, ?_, ?_⟩
  · intro hc hpos _
    have hne : pb.indent ≠ 0 := Nat.pos_iff_ne_zero.mp hpos
    refine ⟨{ st with
              selection := some (sel.setParentIndent (pb.indent - 1)),
              log := st.log ++ [("outdentContent", Value.undef)] }, ?_, ?_, rfl⟩
    · rw [execCommand_run]
      simp [onCommand, hsel, hres, hc, hne, EditorState.setSelection]
    · simp [resolvedIndent, resolve_setParentIndent sel (pb.indent - 1) pb hres]
  · intro hc h0
    refine ⟨{ st with log := st.log ++ [("outdentContent", Value.undef)] }, ?_, ?_⟩
    · rw [execCommand_run]
      simp [onCommand, hsel, hres, hc, h0]
    · simp [stripLog]
  · intro hc hchar
    have hoff : sel.anchorOffset ≠ 0 := by
      intro h0
      rw [charBefore, if_pos h0] at hchar
      exact Option.noConfusion hchar
    refine ⟨{ st with
              selection := some (sel.deleteCharacter true),
              log := st.log ++
                [("outdentContent", Value.undef), ("deleteCharacter", Value.bool true)] },
            ?_, rfl, ?_, rfl, rfl⟩
    · rw [execCommand_run]
      simp [onCommand, hsel, hres, hc, hchar, execN_run, Value.toBool,
        EditorState.setSelection]
    · simp [Selection.deleteCharacter, hoff, getTextContent_setTextContent]
  · intro hc hchar
    refine ⟨{ st with log := st.log ++ [("outdentContent", Value.undef)] }, ?_, ?_⟩
    · rw [execCommand_run]
      simp [onCommand, hsel, hres, hc, hchar]
    · simp [stripLog]

theorem outdentContent_correct_witness :
    ∃ st',
      execCommand "outdentContent" Value.undef
          (stateWith (some (textSelEx codeBlockEx ['a', '\t', 'b'] 2))) =
        Except.ok (true, st') ∧
      st'.selection = some ((textSelEx codeBlockEx ['a', '\t', 'b'] 2).deleteCharacter true) ∧
      ((textSelEx codeBlockEx ['a', '\t', 'b'] 2).deleteCharacter true).anchorNode.getTextContent =
        (textSelEx codeBlockEx ['a', '\t', 'b'] 2).anchorNode.getTextContent.take 1 ++
          (textSelEx codeBlockEx ['a', '\t', 'b'] 2).anchorNode.getTextContent.drop 2 ∧
      st'.root = (stateWith (some (textSelEx codeBlockEx ['a', '\t', 'b'] 2))).root ∧
      st'.log = (stateWith (some (textSelEx codeBlockEx ['a', '\t', 'b'] 2))).log ++
        [("outdentContent", Value.undef), ("deleteCharacter", Value.bool true)] :=
  (outdentContent_correct (stateWith (some (textSelEx codeBlockEx ['a', '\t', 'b'] 2)))
    (textSelEx codeBlockEx ['a', '\t', 'b'] 2) codeBlockEx rfl rfl).2.2.1 rfl (by decide)

/-- C10: dispatching `outdentContent` on a tab-accepting block when the
anchor offset is 0 (the out-of-range lookup yields no character) or when
the preceding character is not a tab performs no deletion and raises no
error, and still reports handled. -/
theorem outdent_nonTab_safe (st : EditorState) (sel : Selection) (pb : Block)
    (hsel : st.selection = some sel)
    (hres : sel.anchorNode.resolveParentBlock? = some pb)
    (htab : pb.canInsertTab = true)
    (h : sel.anchorOffset = 0 ∨ charBefore sel ≠ some '\t') :
    (sel.anchorOffset = 0 → charBefore sel = none) ∧
    ∃ st', execCommand "outdentContent" Value.undef st = Except.ok (true, st') ∧
      stripLog st' = stripLog st := by
  have hzero : ∀ h0 : sel.anchorOffset = 0, charBefore sel = none := by
    intro h0
    rw [charBefore, if_pos h0]
  have hchar : charBefore sel ≠ some '\t' := by
    cases h with
    | inl h0 => rw [hzero h0]; exact fun hx => Option.noConfusion hx
    | inr hne => exact hne
  refine ⟨hzero, { st with log := st.log ++ [("outdentContent", Value.undef)] }, ?_, ?_⟩
  · rw [execCommand_run]
    simp [onCommand, hsel, hres, htab, hchar]
  · simp [stripLog]

theorem outdent_nonTab_safe_witness :
    ((textSelEx codeBlockEx ['a', '\t', 'b'] 0).anchorOffset = 0 →
      charBefore (textSelEx codeBlockEx ['a', '\t', 'b'] 0) = none) ∧
    ∃ st',
      execCommand "outdentContent" Value.undef
          (stateWith (some (textSelEx codeBlockEx ['a', '\t', 'b'] 0))) =
        Except.ok (true, st') ∧
      stripLog st' = stripLog (stateWith (some (textSelEx codeBlockEx ['a', '\t', 'b'] 0))) :=
  outdent_nonTab_safe (stateWith (some (textSelEx codeBlockEx ['a', '\t', 'b'] 0)))
    (textSelEx codeBlockEx ['a', '\t', 'b'] 0) codeBlockEx rfl rfl rfl (Or.inl rfl)

/-- C3: dispatching any command name with any payload when the current
selection is null returns unhandled (false) and produces no model
mutation — both for the registered listener under an arbitrary re-entrant
entry point and for the closed dispatch (whose only state change is the
ghost log). -/
theorem nullSelection_unhandled (type : String) (payload : Value) (st : EditorState)
    (h : st.selection = none) :
    (∀ exec : ExecFn, onCommand exec type payload st = Except.ok (false, st)) ∧
    (∃ st', execCommand type payload st = Except.ok (false, st') ∧
      stripLog st' = stripLog st) := by
  constructor
  · intro exec
    unfold onCommand
    rw [h]
  · refine ⟨{ st with log := st.log ++ [(type, payload)] }, ?_, ?_⟩
    · rw [execCommand_run]
      unfold onCommand
      simp [h]
    · simp [stripLog]

theorem nullSelection_unhandled_witness :
    onCommand falseExec "insertText" (Value.str ['x']) (stateWith none) =
      Except.ok (false, stateWith none) ∧
    (∃ st', execCommand "insertText" (Value.str ['x']) (stateWith none) =
        Except.ok (false, st') ∧
      stripLog st' = stripLog (stateWith none)) :=
  ⟨(nullSelection_unhandled "insertText" (Value.str ['x']) (stateWith none) rfl).1 falseExec,
   (nullSelection_unhandled "insertText" (Value.str ['x']) (stateWith none) rfl).2⟩

/-- C4 counterexample: `indentContent` does not return its delegate's
result unchanged.  At a concrete tab-accepting state, when the re-entrant
entry point reports the delegated `insertText` unhandled (false), the
`indentContent` handler still returns handled (true): the delegate's
result is swallowed. -/
theorem delegation_swallow_counterexample :
    onCommand falseExec "indentContent" Value.undef
        (stateWith (some (textSelEx codeBlockEx ['a', '\t', 'b'] 2))) =
      Except.ok (true, stateWith (some (textSelEx codeBlockEx ['a', '\t', 'b'] 2))) ∧
    falseExec "insertText" (Value.str ['\t'])
        (stateWith (some (textSelEx codeBlockEx ['a', '\t', 'b'] 2))) =
      Except.ok (false, stateWith (some (textSelEx codeBlockEx ['a', '\t', 'b'] 2))) :=
  ⟨rfl, rfl⟩

/-- C4 amended: for keyBackspace, keyDelete, keyEnter and keyTab the
delegate's handled/unhandled result (and its state, and any thrown fault)
is returned unchanged to the original caller; `indentContent` re-dispatches
`insertText` with a single tab but discards the delegate's
handled/unhandled bit, returning handled (true) unconditionally, while the
delegate's state change and any thrown fault still propagate. -/
theorem delegation_result_propagation (exec : ExecFn) (st : EditorState) (sel : Selection)
    (hsel : st.selection = some sel) :
    (∀ s : Bool, onCommand exec "keyBackspace" (Value.keyEvent s) st =
      exec "deleteCharacter" (Value.bool true) st) ∧
    (∀ s : Bool, onCommand exec "keyDelete" (Value.keyEvent s) st =
      exec "deleteCharacter" (Value.bool false) st) ∧
    (onCommand exec "keyEnter" (Value.keyEvent true) st =
      exec "insertLineBreak" Value.undef st) ∧
    (onCommand exec "keyEnter" (Value.keyEvent false) st =
      exec "insertParagraph" Value.undef st) ∧
    (onCommand exec "keyTab" (Value.keyEvent true) st =
      exec "outdentContent" Value.undef st) ∧
    (onCommand exec "keyTab" (Value.keyEvent false) st =
      exec "indentContent" Value.undef st) ∧
    (∀ pb, sel.anchorNode.resolveParentBlock? = some pb → pb.canInsertTab = true →
      onCommand exec "indentContent" Value.undef st =
        (exec "insertText" (Value.str ['\t']) st).map (fun r => (true, r.2))) := by
  refine ⟨?_, ?_, ?_, ?_, ?_, ?_, ?_⟩
  · intro s
    simp [onCommand, hsel, Value.shiftKeyOf]
  · intro s
    simp [onCommand, hsel, Value.shiftKeyOf]
  · simp [onCommand, hsel, Value.shiftKeyOf]
  · simp [onCommand, hsel, Value.shiftKeyOf]
  · simp [onCommand, hsel, Value.shiftKeyOf]
  · simp [onCommand, hsel, Value.shiftKeyOf]
  · intro pb hres hc
    simp only [onCommand, hsel]
    simp [hres, hc]
    cases hx : exec "insertText" (Value.str ['\t']) st with
    | error e => simp [Except.map]
    | ok r => cases r with
        | mk b st' => simp [Except.map]

theorem delegation_result_propagation_witness :
    onCommand falseExec "keyBackspace" (Value.keyEvent false)
        (stateWith (some (textSelEx paraBlockEx ['h', 'i'] 1))) =
      falseExec "deleteCharacter" (Value.bool true)
        (stateWith (some (textSelEx paraBlockEx ['h', 'i'] 1))) :=
  (delegation_result_propagation falseExec
    (stateWith (some (textSelEx paraBlockEx ['h', 'i'] 1)))
    (textSelEx paraBlockEx ['h', 'i'] 1) rfl).1 false

theorem initParagraph_spec (st : EditorState) :
    (initParagraph st).root = st.root ++ [createParagraphNode] ∧
    (shouldSelectParagraph st = true →
      (initParagraph st).selection =
        some { anchorNode := AnchorNode.element createParagraphNode, anchorOffset := 0 }) ∧
    (shouldSelectParagraph st = false →
      (initParagraph st).selection = st.selection) := by
  have hs : shouldSelectParagraph { st with root := st.root ++ [createParagraphNode] } =
      shouldSelectParagraph st := rfl
  refine ⟨?_, ?_, ?_⟩
  · unfold initParagraph
    dsimp only
    split <;> rfl
  · intro h
    unfold initParagraph
    dsimp only
    rw [hs, h]
    rfl
  · intro h
    unfold initParagraph
    dsimp only
    rw [hs, h]
    rfl

/-- C5: `initEditor` on a Root with zero children leaves the Root with
exactly one child, an empty paragraph; on a Root whose first child exists
it is a no-op; and `clearEditor` results in a Root with exactly one empty
paragraph child regardless of prior content and invokes its completion
callback exactly once after the update is committed. -/
theorem lifecycle_initClear_correct (st : EditorState) :
    (st.root = [] → (initEditor st).root = [createParagraphNode]) ∧
    (∀ b bs, st.root = b :: bs → initEditor st = st) ∧
    (clearEditor st).1.root = [createParagraphNode] ∧
    (clearEditor st).2 = 1 := by
  refine ⟨?_, ?_, ?_, rfl⟩
  · intro h
    unfold initEditor
    rw [h]
    show (initParagraph st).root = [createParagraphNode]
    rw [(initParagraph_spec st).1, h]
    rfl
  · intro b bs h
    unfold initEditor
    rw [h]
  · show (initParagraph { st with root := [] }).root = [createParagraphNode]
    rw [(initParagraph_spec { st with root := [] }).1]
    rfl

theorem lifecycle_initClear_correct_witness :
    (initEditor blurredEmptyState).root = [createParagraphNode] ∧
    (clearEditor (stateWith (some (textSelEx codeBlockEx ['a'] 0)))).1.root =
      [createParagraphNode] :=
  ⟨(lifecycle_initClear_correct blurredEmptyState).1 rfl,
   (lifecycle_initClear_correct (stateWith (some (textSelEx codeBlockEx ['a'] 0)))).2.2.1⟩

/-- C6: with an active selection, dispatching keyEnter with shift held
produces the same model effect (the state up to the ghost log) as directly
dispatching insertLineBreak with selectStart false, and dispatching
keyEnter without shift produces the same model effect as directly
dispatching insertParagraph; all four dispatches report handled. -/
theorem keyEnter_equiv (st : EditorState) (sel : Selection)
    (hsel : st.selection = some sel) :
    (∃ st1 st2,
      execCommand "keyEnter" (Value.keyEvent true) st = Except.ok (true, st1) ∧
      execCommand "insertLineBreak" (Value.bool false) st = Except.ok (true, st2) ∧
      stripLog st1 = stripLog st2) ∧
    (∃ st1 st2,
      execCommand "keyEnter" (Value.keyEvent false) st = Except.ok (true, st1) ∧
      execCommand "insertParagraph" Value.undef st = Except.ok (true, st2) ∧
      stripLog st1 = stripLog st2) := by
  constructor
  · refine ⟨{ st with
              selection := some (sel.insertLineBreak false),
              log := st.log ++
                [("keyEnter", Value.keyEvent true), ("insertLineBreak", Value.undef)] },
            { st with
              selection := some (sel.insertLineBreak false),
              log := st.log ++ [("insertLineBreak", Value.bool false)] }, ?_, ?_, ?_⟩
    · rw [execCommand_run]
      simp [onCommand, hsel, execN_run, Value.shiftKeyOf, Value.toBool,
        EditorState.setSelection]
    · rw [execCommand_run]
      simp [onCommand, hsel, Value.toBool, EditorState.setSelection]
    · simp [stripLog]
  · refine ⟨{ st with
              selection := some sel.insertParagraph,
              log := st.log ++
                [("keyEnter", Value.keyEvent false), ("insertParagraph", Value.undef)] },
            { st with
              selection := some sel.insertParagraph,
              log := st.log ++ [("insertParagraph", Value.undef)] }, ?_, ?_, ?_⟩
    · rw [execCommand_run]
      simp [onCommand, hsel, execN_run, Value.shiftKeyOf, EditorState.setSelection]
    · rw [execCommand_run]
      simp [onCommand, hsel, EditorState.setSelection]
    · simp [stripLog]

theorem keyEnter_equiv_witness :
    ∃ st1 st2,
      execCommand "keyEnter" (Value.keyEvent true)
          (stateWith (some (textSelEx paraBlockEx ['h', 'i'] 1))) =
        Except.ok (true, st1) ∧
      execCommand "insertLineBreak" (Value.bool false)
          (stateWith (some (textSelEx paraBlockEx ['h', 'i'] 1))) =
        Except.ok (true, st2) ∧
      stripLog st1 = stripLog st2 :=
  (keyEnter_equiv (stateWith (some (textSelEx paraBlockEx ['h', 'i'] 1)))
    (textSelEx paraBlockEx ['h', 'i'] 1) rfl).1

/-- C7: for a dispatch of indentContent or outdentContent, the enclosing
block resolves to the anchor node itself when that node is an element
(block-level) and to its parent block otherwise; when a text anchor has no
parent block, the dispatch fails fatally with a thrown invariant violation
(`Except.error`), not a recoverable unhandled result. -/
theorem resolveBlock_correct (st : EditorState) (sel : Selection)
    (hsel : st.selection = some sel) :
    (∀ b, sel.anchorNode = AnchorNode.element b →
      sel.anchorNode.resolveParentBlock? = some b) ∧
    (∀ c p, sel.anchorNode = AnchorNode.textNode c (some p) →
      sel.anchorNode.resolveParentBlock? = some p) ∧
    (∀ c, sel.anchorNode = AnchorNode.textNode c none →
      execCommand "indentContent" Value.undef st =
        Except.error (JsError.invariantViolation "getParentOrThrow") ∧
      execCommand "outdentContent" Value.undef st =
        Except.error (JsError.invariantViolation "getParentOrThrow")) := by
  refine ⟨?_, ?_, ?_⟩
  · intro b hb
    rw [hb]
    rfl
  · intro c p hp
    rw [hp]
    rfl
  · intro c hc
    have hres : sel.anchorNode.resolveParentBlock? = none := by
      rw [hc]
      rfl
    constructor <;> (rw [execCommand_run]; simp [onCommand, hsel, hres])

theorem resolveBlock_correct_witness :
    execCommand "indentContent" Value.undef (stateWith (some orphanSel)) =
      Except.error (JsError.invariantViolation "getParentOrThrow") ∧
    execCommand "outdentContent" Value.undef (stateWith (some orphanSel)) =
      Except.error (JsError.invariantViolation "getParentOrThrow") :=
  (resolveBlock_correct (stateWith (some orphanSel)) orphanSel rfl).2.2 ['x'] rfl

/-- C8 counterexample: mounting with the initialise flag on an empty Root
does not always anchor the selection in the new paragraph.  On an empty,
unfocused surface with no prior selection, the paragraph is created but
the selection stays null. -/
theorem mount_select_counterexample :
    (useRichTextSetup true blurredEmptyState).root = [createParagraphNode] ∧
    (useRichTextSetup true blurredEmptyState).selection = none :=
  ⟨rfl, rfl⟩

/-- C8 amended: mounting with the initialise flag on an empty Root results
in exactly one paragraph child, and when the selection-visibility
heuristic holds (an active selection already exists or the surface has
focus) the selection is anchored inside that paragraph at offset 0. -/
theorem mount_initFlag_correct (st : EditorState) (hroot : st.root = [])
    (hh : shouldSelectParagraph st = true) :
    (useRichTextSetup true st).root = [createParagraphNode] ∧
    (useRichTextSetup true st).selection =
      some { anchorNode := AnchorNode.element createParagraphNode, anchorOffset := 0 } := by
  have h1 : useRichTextSetup true st = initParagraph st := by
    simp only [useRichTextSetup, initEditor, if_true, hroot]
  rw [h1]
  refine ⟨?_, (initParagraph_spec st).2.1 hh⟩
  rw [(initParagraph_spec st).1, hroot]
  rfl

theorem mount_initFlag_correct_witness :
    (useRichTextSetup true focusedEmptyState).root = [createParagraphNode] ∧
    (useRichTextSetup true focusedEmptyState).selection =
      some { anchorNode := AnchorNode.element createParagraphNode, anchorOffset := 0 } :=
  mount_initFlag_correct focusedEmptyState rfl rfl

/-- C9: the Normalizer's event bindings are selected once by the platform
capability flag: with native before-input support the beforeinput handler
is bound and no drop handler is; without it the drop-polyfill handler is
bound and beforeinput is not. -/
theorem eventBindings_capability :
    ("beforeinput", "onBeforeInput") ∈ events true ∧
    (events true).all (fun p => !(p.1 == "drop")) = true ∧
    ("drop", "onDropPolyfill") ∈ events false ∧
    (events false).all (fun p => !(p.1 == "beforeinput")) = true := by
  decide

end RichText
